import Mathlib

/-!
Verification development for the Events part of a Cumulocity REST client
library (`c8y_api/model/events.py` and `c8y_api/_util.py`).

JSON payloads are modelled as association lists of key/value pairs, query
strings as lists of characters.  Parts of the library that live in base
modules outside the provided sources (`ComplexObjectParser`, the
`CumulocityResource` query builder and page iterator, `_DateUtil`, the
updatable-property machinery) are modelled from the specification; this is
marked in the corresponding doc comments.
-/

set_option autoImplicit false

/-- A JSON value: null, string, integer, boolean, or nested object
(an association list of named values).  Arrays are not needed by any
field or fragment handled here. -/
inductive Json where
  | null
  | str (s : String)
  | num (n : Int)
  | bool (b : Bool)
  | obj (fields : List (String × Json))

/-- Lookup of a key in a JSON object (association list), first match wins.
This models Python `dict` key access on parsed JSON. -/
def jlookup (k : String) : List (String × Json) → Option Json
  | [] => none
  | (k2, v) :: rest => if k2 = k then some v else jlookup k rest

/-- Python truthiness of an attribute holding an optional JSON value:
`None`, the empty string, zero, `False` and empty objects are falsy.
Models the `if not e.time` test in `Events.create`. -/
def jsonFalsy : Option Json → Bool
  | none => true
  | some Json.null => true
  | some (Json.str s) => s = ""
  | some (Json.num n) => n = 0
  | some (Json.bool b) => !b
  | some (Json.obj l) => l.isEmpty

/-- The in-memory `Event` model object.  Typed fields mirror the attributes
set in `Event.__init__` / mapped by the field parser; `fragments` is the
open-ended bag of custom fragments of `ComplexObject`.  `textUpdated` and
`updatedFragments` model the change tracking of the updatable `text`
property and of fragment updates (spec: fields marked updatable track
whether they were mutated since load). -/
structure Event where
  type : Option Json := none
  time : Option Json := none
  text : Option Json := none
  source : Option Json := none
  creation_time : Option Json := none
  updated_time : Option Json := none
  fragments : List (String × Json) := []
  textUpdated : Bool := false
  updatedFragments : List String := []

/-- The JSON keys mapped to typed fields by the `Event` field mapping:
`type`, `time`, `text` (updatable), `creationTime`, `lastUpdated`.
`source` is handled separately (it is excluded from fragment parsing). -/
def eventFieldNames : List String :=
  ["type", "time", "text", "creationTime", "lastUpdated"]

/-- Emit a JSON entry for an optional field value, skipping unset fields.
Modelled from the spec: the generic field parser writes each non-empty
mapped attribute under its JSON name. -/
def optField (k : String) : Option Json → List (String × Json)
  | some v => [(k, v)]
  | none => []

/-- `Event.from_json`: the generic parser part (modelled from the spec:
known keys are mapped to typed fields, every other key becomes an opaque
fragment, `source` is excluded from fragment parsing) followed by the
source-specific assignment of the nested source id, which fails when
the `source` key or its nested `id` is missing. -/
def Event.from_json (j : List (String × Json)) : Option Event :=
  let obj : Event :=
    { type := jlookup "type" j
      time := jlookup "time" j
      text := jlookup "text" j
      creation_time := jlookup "creationTime" j
      updated_time := jlookup "lastUpdated" j
      fragments := j.filter (fun kv =>
        !(kv.1 == "type" || kv.1 == "time" || kv.1 == "text" ||
          kv.1 == "creationTime" || kv.1 == "lastUpdated" || kv.1 == "source"))
      textUpdated := false
      updatedFragments := [] }
  match jlookup "source" j with
  | some (Json.obj srcFields) =>
    match jlookup "id" srcFields with
    | some idv => some { obj with source := some idv }
    | none => none
  | _ => none

/-- `Event.to_json`: the generic serialisation with `creation_time` always
excluded, plus the manual `source` entry which is only written for full
(non-diff) payloads.  In diff mode (`only_updated = true`) only fields
flagged as changed since load are emitted (modelled from the spec), and
the only updatable typed field of `Event` is `text`. -/
def Event.to_json (e : Event) (only_updated : Bool) : List (String × Json) :=
  let mapped :=
    if only_updated then
      (if e.textUpdated then optField "text" e.text else [])
    else
      optField "type" e.type ++ optField "time" e.time ++ optField "text" e.text ++
        optField "lastUpdated" e.updated_time
  let frags :=
    if only_updated then
      e.fragments.filter (fun kv => e.updatedFragments.contains kv.1)
    else
      e.fragments
  let src :=
    if only_updated then []
    else
      match e.source with
      | some s => [("source", Json.obj [("id", s)])]
      | none => []
  mapped ++ frags ++ src

/-- Assignment through the updatable `text` property
(`SimpleObject.UpdatableProperty` over the shadow attribute): sets the value and flags the
field as changed since load. -/
def Event.set_text (e : Event) (t : Json) : Event :=
  { e with text := some t, textUpdated := true }

/-- `Event.has_attachment`: checks the presence of the `c8y_IsBinary`
fragment on the locally loaded object (a membership test on the fragment
names); a pure
query of the in-memory state. -/
def Event.has_attachment (e : Event) : Bool :=
  e.fragments.any (fun kv => kv.1 = "c8y_IsBinary")

/-- A time-valued filter argument: either a pre-formatted ISO string or a
datetime value (datetimes are abstracted as natural numbers, seconds since
some epoch). -/
inductive CTime where
  | str (s : List Char)
  | dt (t : Nat)

/-- Modelled from the spec (`_DateUtil`): deterministic rendering of a
datetime value as an ISO-8601 UTC timestamp string.  The exact digit
layout is irrelevant to the claims; a decimal rendering with a UTC
marker stands in for it. -/
def isoFormat (t : Nat) : List Char :=
  Nat.toDigits 10 t ++ "Z".toList

/-- Modelled from the spec: time-valued filters accept either a
pre-formatted ISO string or a datetime value and are normalized to an
ISO-8601 string before insertion into the query. -/
def ensureTimestring : CTime → List Char
  | CTime.str s => s
  | CTime.dt t => isoFormat t

/-- First-defined-wins resolution of two mutually aliased filter
arguments. -/
def firstSome {α : Type} : Option α → Option α → Option α
  | some v, _ => some v
  | none, b => b

/-- Query parameter for an optional plain string filter. -/
def optStrParam (k : List Char) : Option (List Char) → List (List Char)
  | some v => [k ++ "=".toList ++ v]
  | none => []

/-- Query parameter for an optional time-valued filter. -/
def optTimeParam (k : List Char) : Option CTime → List (List Char)
  | some v => [k ++ "=".toList ++ ensureTimestring v]
  | none => []

/-- Modelled from the spec: the filter-to-query mapping of
`CumulocityResource._build_base_query`.  Each filter parameter maps to a
specific query key; mutually-aliased parameters resolve to the same key;
`min_age`/`max_age` derive date bounds from the current time `now`;
unset filters are omitted; `reverse` changes the sort direction;
`page_size`, when given, is appended last. -/
def prepareQueryParams (now : Nat)
    (type source fragment : Option (List Char))
    (before after date_from date_to : Option CTime)
    (created_before created_after created_from created_to : Option CTime)
    (updated_before updated_after last_updated_from last_updated_to : Option CTime)
    (min_age max_age : Option Nat)
    (reverse : Bool) (page_size : Option Nat) : List (List Char) :=
  let dateTo := firstSome before (firstSome date_to
    (min_age.map (fun a => CTime.dt (now - a))))
  let dateFrom := firstSome after (firstSome date_from
    (max_age.map (fun a => CTime.dt (now - a))))
  let createdTo := firstSome created_before created_to
  let createdFrom := firstSome created_after created_from
  let lastUpdatedTo := firstSome updated_before last_updated_to
  let lastUpdatedFrom := firstSome updated_after last_updated_from
  optStrParam "type".toList type ++
  optStrParam "source".toList source ++
  optStrParam "fragmentType".toList fragment ++
  optTimeParam "dateFrom".toList dateFrom ++
  optTimeParam "dateTo".toList dateTo ++
  optTimeParam "createdFrom".toList createdFrom ++
  optTimeParam "createdTo".toList createdTo ++
  optTimeParam "lastUpdatedFrom".toList lastUpdatedFrom ++
  optTimeParam "lastUpdatedTo".toList lastUpdatedTo ++
  (if reverse then ["revert=true".toList] else []) ++
  (match page_size with
   | some n => ["pageSize=".toList ++ Nat.toDigits 10 n]
   | none => [])

/-- The resource path the `Events` accessor is constructed with. -/
def eventsResource : List Char := "/event/events".toList

/-- Modelled from the spec: a base query is the resource path, the
filter-encoded parameters joined by `&`, and a fixed page-number suffix
to which `_iterate` appends concrete page numbers. -/
def buildBaseQuery (resource : List Char) (params : List (List Char)) : List Char :=
  resource ++ "?".toList ++ List.intercalate "&".toList params ++ "&page_number=".toList

/-- The base query built by `Events.select`: all filters are forwarded to
the query builder together with `reverse` and `page_size`. -/
def eventsSelectBaseQuery (now : Nat)
    (type source fragment : Option (List Char))
    (before after date_from date_to : Option CTime)
    (created_before created_after created_from created_to : Option CTime)
    (updated_before updated_after last_updated_from last_updated_to : Option CTime)
    (min_age max_age : Option Nat)
    (reverse : Bool) (page_size : Nat) : List Char :=
  buildBaseQuery eventsResource
    (prepareQueryParams now type source fragment before after date_from date_to
      created_before created_after created_from created_to
      updated_before updated_after last_updated_from last_updated_to
      min_age max_age reverse (some page_size))

/-- Everything of a query string before its last `&`: the string surgery
of `Events.delete_by`: everything up to the result of rindex on the
ampersand character. -/
def trimLastAmp (l : List Char) : List Char :=
  (((l.reverse).dropWhile (fun c => c != '&')).drop 1).reverse

/-- The query string `Events.delete_by` passes to `self.c8y.delete`: a base
query over the seven shared filters only (no page size, no reverse), with
the last query-string segment trimmed at the last `&`.  The function is
total: the request is issued for every argument combination, there is no
guard. -/
def eventsDeleteByQuery (now : Nat)
    (type source fragment : Option (List Char))
    (before after : Option CTime)
    (min_age max_age : Option Nat) : List Char :=
  trimLastAmp (buildBaseQuery eventsResource
    (prepareQueryParams now type source fragment before after none none
      none none none none none none none none
      min_age max_age false none))

/-- The base filter query of the glossary of the spec: the filter-encoded query
string shared by read and delete-by-filter operations, before pagination
parameters (page size, page number suffix) are appended.  This is
the construction used by `Events.select` with the pagination parameters removed and
nothing else changed. -/
def eventsBaseFilterQuery (now : Nat)
    (type source fragment : Option (List Char))
    (before after : Option CTime)
    (min_age max_age : Option Nat) : List Char :=
  eventsResource ++ "?".toList ++
    List.intercalate "&".toList
      (prepareQueryParams now type source fragment before after none none
        none none none none none none none none
        min_age max_age false none)

/-- Modelled from the spec: server-side paging of an upstream result
sequence.  Page numbers are 1-based; page `n` holds the `page_size` items
starting at offset `(n - 1) * page_size`. -/
def upstreamPage {α : Type} (all : List α) (page_size : Nat) (n : Nat) : List α :=
  (all.drop ((n - 1) * page_size)).take page_size

/-- Modelled from the spec: the lazy page iterator
(`CumulocityResource._iterate`) as a pull-based loop.  Starting at page 1
it fetches a page, yields its items up to the remaining limit, and
continues with the next page; it stops without a further fetch when the
limit is reached or a fetched page is empty.  Returns the yielded items
and the number of page fetches issued.  `fuel` bounds the recursion; each
fetched non-empty page consumes at least one unit of the remaining limit,
so `fuel := limit` suffices. -/
def iteratePages {α : Type} (fetch : Nat → List α) : Nat → Nat → Nat → List α × Nat
  | _, _, 0 => ([], 0)
  | page, remaining, fuel + 1 =>
    if remaining = 0 then ([], 0)
    else
      match fetch page with
      | [] => ([], 1)
      | p =>
        if p.length < remaining then
          let r := iteratePages fetch (page + 1) (remaining - p.length) fuel
          (p ++ r.1, r.2 + 1)
        else
          (p.take remaining, 1)

/-- `Events.select` restricted to what drives pagination: the upstream
result sequence `all`, the page size and the limit; yields the selected
events and counts the page fetches issued. -/
def eventsSelectPaged {α : Type} (all : List α) (page_size limit : Nat) : List α × Nat :=
  iteratePages (upstreamPage all page_size) 1 limit limit

/-- The per-event preparation step of `Events.create`: if the time of the event
is unset (falsy: `None` or empty), it is defaulted to the current UTC time
rendered as a timestamp string; otherwise the event is untouched. -/
def eventCreatePrepare (now : Nat) (e : Event) : Event :=
  if jsonFalsy e.time then
    { e with time := some (Json.str (String.mk (isoFormat now))) }
  else
    e

/-- `Events.create` applies the time default to each given event before
sending the bulk create request. -/
def eventsCreatePrepareAll (now : Nat) (events : List Event) : List Event :=
  events.map (eventCreatePrepare now)

/-- Modelled from the spec: `_build_object_path`, the path of a loaded
resource object: the resource base path plus the object identifier. -/
def buildObjectPath (resource objectId : List Char) : List Char :=
  resource ++ "/".toList ++ objectId

/-- `Event._build_attachment_path`: the binary sub-resource path of the
event: its object path plus `/binaries`. -/
def buildAttachmentPath (objectId : List Char) : List Char :=
  buildObjectPath eventsResource objectId ++ "/binaries".toList

/-- The four attachment operations of `Event`; they differ only in the
HTTP verb of the request eventually issued. -/
inductive AttachmentOp where
  | createOp
  | updateOp
  | downloadOp
  | deleteOp

/-- Shared shape of `Event.create_attachment`, `Event.update_attachment`,
`Event.download_attachment` and `Event.delete_attachment`: first
`_assert_c8y`, then `_assert_id` (both modelled from the spec: fail fast
with a precondition error before any network call when the client
reference or the identifier is missing), then the request against the
attachment path.  The error side carries the precondition message, the
ok side the operation and the request path. -/
def eventAttachmentRequest (op : AttachmentOp) (hasC8y : Bool)
    (objectId : Option (List Char)) : Except (List Char) (AttachmentOp × List Char) :=
  if !hasC8y then
    Except.error "Cumulocity connection reference must be set.".toList
  else
    match objectId with
    | none => Except.error "The object ID must be set.".toList
    | some i => Except.ok (op, buildAttachmentPath i)

/-- A concrete event with a creation time, used to evaluate the
serialisation round trip: `Event.to_json` always excludes the creation
time, so `Event.from_json` cannot reconstruct it. -/
def roundtripCexEvent : Event :=
  { type := some (Json.str "c8y_TestEvent")
    source := some (Json.str "101")
    creation_time := some (Json.str "2020-01-01T00:00:00Z") }

/-! Helper lemmas. -/

theorem dropWhile_no_match_append (s r : List Char) (h : ∀ c ∈ s, c ≠ '&') :
    (s ++ '&' :: r).dropWhile (fun c => c != '&') = '&' :: r := by
  induction s with
  | nil => simp [List.dropWhile]
  | cons a t ih =>
    have ha : a ≠ '&' := h a (by simp)
    have ht := ih (fun c hc => h c (by simp [hc]))
    simp [List.dropWhile_cons, ha, ht]

theorem trimLastAmp_append (p r : List Char) (h : ∀ c ∈ r, c ≠ '&') :
    trimLastAmp (p ++ '&' :: r) = p := by
  unfold trimLastAmp
  have hrev : ∀ c ∈ r.reverse, c ≠ '&' := fun c hc => h c (List.mem_reverse.mp hc)
  rw [List.reverse_append, List.reverse_cons, List.append_assoc,
    List.singleton_append, dropWhile_no_match_append r.reverse p.reverse hrev]
  simp

/-- Claim C1: with every filter argument unset, `Events.delete_by` still
issues the DELETE request, and the query it sends is the bare resource
path with an empty query string — an unrestricted bulk delete with no
guard.  This evaluates the code at the failing input of the claim. -/
theorem events_delete_by_no_filter_unrestricted :
    eventsDeleteByQuery 0 none none none none none none none = "/event/events?".toList := by
  rfl

/-- Claim C2: for every combination of the shared filter arguments, the
query string `Events.delete_by` passes to the delete operation of the REST
client equals
the base filter query `Events.select` builds for the same filter values
with the pagination parameters removed and nothing else changed. -/
theorem events_delete_by_matches_select_filters (now : Nat)
    (type source fragment : Option (List Char)) (before after : Option CTime)
    (min_age max_age : Option Nat) :
    eventsDeleteByQuery now type source fragment before after min_age max_age =
      eventsBaseFilterQuery now type source fragment before after min_age max_age := by
  have h : ∀ c ∈ "page_number=".toList, c ≠ '&' := by decide
  unfold eventsDeleteByQuery eventsBaseFilterQuery buildBaseQuery
  have e : ("&page_number=".toList : List Char) = '&' :: "page_number=".toList := rfl
  rw [e]
  have t := trimLastAmp_append
    ((eventsResource ++ "?".toList) ++
      List.intercalate "&".toList
        (prepareQueryParams now type source fragment before after none none
          none none none none none none none none min_age max_age false none))
    "page_number=".toList h
  simpa [List.append_assoc] using t

/-- Claim C7: each pair of mutually-aliased filter parameters of
`Events.select` resolves to the same query key: for every filter value the
query built with one alias equals the query built with the other. -/
theorem events_select_alias_equivalence (now : Nat) (X : CTime) :
    (eventsSelectBaseQuery now none none none (some X) none none none none none none none none none none none none none false 1000 =
      eventsSelectBaseQuery now none none none none none none (some X) none none none none none none none none none none false 1000) ∧
    (eventsSelectBaseQuery now none none none none (some X) none none none none none none none none none none none none false 1000 =
      eventsSelectBaseQuery now none none none none none (some X) none none none none none none none none none none none false 1000) ∧
    (eventsSelectBaseQuery now none none none none none none none (some X) none none none none none none none none none false 1000 =
      eventsSelectBaseQuery now none none none none none none none none none none (some X) none none none none none none false 1000) ∧
    (eventsSelectBaseQuery now none none none none none none none none (some X) none none none none none none none none false 1000 =
      eventsSelectBaseQuery now none none none none none none none none none (some X) none none none none none none none false 1000) ∧
    (eventsSelectBaseQuery now none none none none none none none none none none none (some X) none none none none none false 1000 =
      eventsSelectBaseQuery now none none none none none none none none none none none none none none (some X) none none false 1000) ∧
    (eventsSelectBaseQuery now none none none none none none none none none none none none (some X) none none none none false 1000 =
      eventsSelectBaseQuery now none none none none none none none none none none none none none (some X) none none none false 1000) := by
  exact ⟨rfl, rfl, rfl, rfl, rfl, rfl⟩

/-- Claim C10: `Event.has_attachment` returns true exactly when the object
holds a fragment named `c8y_IsBinary`; it is a pure function of the
locally loaded state. -/
theorem event_has_attachment_iff_fragment (e : Event) :
    e.has_attachment = true ↔ ∃ v, ("c8y_IsBinary", v) ∈ e.fragments := by
  unfold Event.has_attachment
  rw [List.any_eq_true]
  constructor
  · rintro ⟨⟨k, v⟩, hm, hk⟩
    simp only [decide_eq_true_eq] at hk
    exact ⟨v, by simpa [hk] using hm⟩
  · rintro ⟨v, hv⟩
    exact ⟨("c8y_IsBinary", v), hv, by simp⟩

theorem jlookup_append (k : String) (a b : List (String × Json)) :
    jlookup k (a ++ b) = firstSome (jlookup k a) (jlookup k b) := by
  induction a with
  | nil => simp [jlookup, firstSome]
  | cons kv t ih =>
    obtain ⟨k2, v⟩ := kv
    by_cases h : k2 = k <;> simp [jlookup, h, ih, firstSome]

theorem jlookup_none_of_no_key (k : String) (l : List (String × Json))
    (h : ∀ kv ∈ l, kv.1 ≠ k) : jlookup k l = none := by
  induction l with
  | nil => rfl
  | cons kv t ih =>
    obtain ⟨k2, v⟩ := kv
    have h1 : k2 ≠ k := h (k2, v) (by simp)
    simp only [jlookup, if_neg h1]
    exact ih (fun kv2 hm => h kv2 (by simp [hm]))

theorem from_json_none_of_no_source (j : List (String × Json))
    (h : jlookup "source" j = none) : Event.from_json j = none := by
  unfold Event.from_json
  rw [h]

theorem from_json_none_of_no_id (j sf : List (String × Json))
    (hs : jlookup "source" j = some (Json.obj sf))
    (hid : jlookup "id" sf = none) : Event.from_json j = none := by
  unfold Event.from_json
  rw [hs]
  simp only [hid]

theorem from_json_eq (j sf : List (String × Json)) (idv : Json)
    (hs : jlookup "source" j = some (Json.obj sf))
    (hid : jlookup "id" sf = some idv) :
    Event.from_json j = some
      { type := jlookup "type" j, time := jlookup "time" j, text := jlookup "text" j,
        source := some idv, creation_time := jlookup "creationTime" j,
        updated_time := jlookup "lastUpdated" j,
        fragments := j.filter (fun kv =>
          !(kv.1 == "type" || kv.1 == "time" || kv.1 == "text" ||
            kv.1 == "creationTime" || kv.1 == "lastUpdated" || kv.1 == "source")),
        textUpdated := false, updatedFragments := [] } := by
  unfold Event.from_json
  rw [hs]
  simp only [hid]

/-- Claim C5: `Event.from_json` fails (the model returns `none`, the code
raises) when the required `source` key or its nested `id` is missing;
when they are present it maps each known key to the corresponding typed
field (`type`, `time`, `text`, `creationTime`, `lastUpdated`,
`source.id`), and every other key of the input becomes an opaque fragment
of the resulting object. -/
theorem event_from_json_required_and_mapping (j : List (String × Json)) :
    (jlookup "source" j = none → Event.from_json j = none) ∧
    (∀ sf, jlookup "source" j = some (Json.obj sf) → jlookup "id" sf = none →
      Event.from_json j = none) ∧
    (∀ sf idv, jlookup "source" j = some (Json.obj sf) → jlookup "id" sf = some idv →
      ∃ y, Event.from_json j = some y ∧
        y.type = jlookup "type" j ∧ y.time = jlookup "time" j ∧
        y.text = jlookup "text" j ∧ y.source = some idv ∧
        y.creation_time = jlookup "creationTime" j ∧
        y.updated_time = jlookup "lastUpdated" j ∧
        (∀ k v, (k, v) ∈ y.fragments ↔ ((k, v) ∈ j ∧ k ≠ "type" ∧ k ≠ "time" ∧
          k ≠ "text" ∧ k ≠ "creationTime" ∧ k ≠ "lastUpdated" ∧ k ≠ "source"))) := by
  refine ⟨from_json_none_of_no_source j, fun sf hs hid => from_json_none_of_no_id j sf hs hid,
    fun sf idv hs hid => ⟨_, from_json_eq j sf idv hs hid, rfl, rfl, rfl, rfl, rfl, rfl, ?_⟩⟩
  intro k v
  simp [List.mem_filter, and_assoc]

/-- Claim C5, witness: a JSON object without a `source` key is rejected by
`Event.from_json`. -/
theorem event_from_json_required_witness :
    Event.from_json [("type", Json.str "c8y_Test")] = none :=
  (event_from_json_required_and_mapping [("type", Json.str "c8y_Test")]).1 rfl

theorem firstSome_none_right {α : Type} (a : Option α) : firstSome a none = a := by
  cases a <;> rfl

/-- Claim C3, counterexample: the round trip `from_json (to_json x)` does
not reconstruct an equivalent object for every valid field combination:
for an event with a set creation time the reconstruction has a
`creation_time` is `None`, because `to_json` always excludes it. -/
theorem event_roundtrip_creation_time_cex :
    (Event.from_json (roundtripCexEvent.to_json false)).map Event.creation_time = some none ∧
    roundtripCexEvent.creation_time = some (Json.str "2020-01-01T00:00:00Z") ∧
    (Event.from_json (roundtripCexEvent.to_json false)).map Event.creation_time ≠
      some roundtripCexEvent.creation_time := by
  refine ⟨rfl, rfl, ?_⟩
  intro h
  rw [show (Event.from_json (roundtripCexEvent.to_json false)).map Event.creation_time =
    some none from rfl] at h
  simp [roundtripCexEvent] at h

/-- Claim C3, amended: for every event whose source is set and whose
fragment names do not collide with the mapped JSON keys,
`from_json (to_json x)` reconstructs an object agreeing with `x` on
`type`, `time`, `text`, `source`, `updated_time` and all fragments; the
`creation_time` field alone is not preserved (it is always excluded from
the serialisation, so it comes back unset). -/
theorem event_roundtrip_amended (x : Event) (s : Json)
    (hs : x.source = some s)
    (hf : ∀ kv ∈ x.fragments, kv.1 ≠ "type" ∧ kv.1 ≠ "time" ∧ kv.1 ≠ "text" ∧
      kv.1 ≠ "creationTime" ∧ kv.1 ≠ "lastUpdated" ∧ kv.1 ≠ "source") :
    ∃ y, Event.from_json (x.to_json false) = some y ∧
      y.type = x.type ∧ y.time = x.time ∧ y.text = x.text ∧ y.source = x.source ∧
      y.updated_time = x.updated_time ∧ y.creation_time = none ∧
      y.fragments = x.fragments := by
  obtain ⟨ty, ti, te, so, ct, ut, fr, tu, uf⟩ := x
  simp only at hs hf ⊢
  subst hs
  have hfT : jlookup "type" fr = none :=
    jlookup_none_of_no_key _ _ (fun kv hm => (hf kv hm).1)
  have hfTi : jlookup "time" fr = none :=
    jlookup_none_of_no_key _ _ (fun kv hm => (hf kv hm).2.1)
  have hfTe : jlookup "text" fr = none :=
    jlookup_none_of_no_key _ _ (fun kv hm => (hf kv hm).2.2.1)
  have hfC : jlookup "creationTime" fr = none :=
    jlookup_none_of_no_key _ _ (fun kv hm => (hf kv hm).2.2.2.1)
  have hfL : jlookup "lastUpdated" fr = none :=
    jlookup_none_of_no_key _ _ (fun kv hm => (hf kv hm).2.2.2.2.1)
  have hfS : jlookup "source" fr = none :=
    jlookup_none_of_no_key _ _ (fun kv hm => (hf kv hm).2.2.2.2.2)
  have hfilter : fr.filter (fun kv =>
      !(kv.1 == "type" || kv.1 == "time" || kv.1 == "text" ||
        kv.1 == "creationTime" || kv.1 == "lastUpdated" || kv.1 == "source")) = fr := by
    refine List.filter_eq_self.mpr (fun kv hm => ?_)
    obtain ⟨h1, h2, h3, h4, h5, h6⟩ := hf kv hm
    simp [h1, h2, h3, h4, h5, h6]
  have hto : Event.to_json ⟨ty, ti, te, some s, ct, ut, fr, tu, uf⟩ false =
      optField "type" ty ++ (optField "time" ti ++ (optField "text" te ++
        (optField "lastUpdated" ut ++ (fr ++ [("source", Json.obj [("id", s)])])))) := by
    simp [Event.to_json, List.append_assoc]
  have hsrc : jlookup "source"
      (Event.to_json ⟨ty, ti, te, some s, ct, ut, fr, tu, uf⟩ false) =
      some (Json.obj [("id", s)]) := by
    rw [hto]
    rcases ty with _ | a <;> rcases ti with _ | b <;> rcases te with _ | c <;>
      rcases ut with _ | d <;>
        simp [optField, jlookup_append, jlookup, firstSome, hfS]
  refine ⟨⟨ty, ti, te, some s, none, ut, fr, false, []⟩,
    ?_, rfl, rfl, rfl, rfl, rfl, rfl, rfl⟩
  rw [from_json_eq _ [("id", s)] s hsrc (by simp [jlookup]), hto, Option.some.injEq]
  simp only [Event.mk.injEq]
  refine ⟨?_, ?_, ?_, by trivial, ?_, ?_, ?_, by trivial, by trivial⟩
  · rcases ty with _ | a <;> rcases ti with _ | b <;> rcases te with _ | c <;>
      rcases ut with _ | d <;>
        simp [optField, jlookup_append, jlookup, firstSome, firstSome_none_right, hfT]
  · rcases ty with _ | a <;> rcases ti with _ | b <;> rcases te with _ | c <;>
      rcases ut with _ | d <;>
        simp [optField, jlookup_append, jlookup, firstSome, firstSome_none_right, hfTi]
  · rcases ty with _ | a <;> rcases ti with _ | b <;> rcases te with _ | c <;>
      rcases ut with _ | d <;>
        simp [optField, jlookup_append, jlookup, firstSome, firstSome_none_right, hfTe]
  · rcases ty with _ | a <;> rcases ti with _ | b <;> rcases te with _ | c <;>
      rcases ut with _ | d <;>
        simp [optField, jlookup_append, jlookup, firstSome, firstSome_none_right, hfC]
  · rcases ty with _ | a <;> rcases ti with _ | b <;> rcases te with _ | c <;>
      rcases ut with _ | d <;>
        simp [optField, jlookup_append, jlookup, firstSome, firstSome_none_right, hfL]
  · simp only [List.filter_append]
    rw [hfilter]
    rcases ty with _ | a <;> rcases ti with _ | b <;> rcases te with _ | c <;>
      rcases ut with _ | d <;>
        simp [optField, List.filter]

/-- Claim C3, amended, witness: the round trip at a concrete event with
type, text, source and one custom fragment. -/
theorem event_roundtrip_amended_witness :
    ∃ y, Event.from_json (Event.to_json
        { type := some (Json.str "c8y_TestEvent"), text := some (Json.str "hello"),
          source := some (Json.str "101"),
          fragments := [("c8y_Custom", Json.obj [("x", Json.num 1)])] } false) = some y ∧
      y.type = some (Json.str "c8y_TestEvent") ∧ y.time = none ∧
      y.text = some (Json.str "hello") ∧ y.source = some (Json.str "101") ∧
      y.updated_time = none ∧ y.creation_time = none ∧
      y.fragments = [("c8y_Custom", Json.obj [("x", Json.num 1)])] := by
  obtain ⟨y, h1, h2, h3, h4, h5, h6, h7, h8⟩ :=
    event_roundtrip_amended
      { type := some (Json.str "c8y_TestEvent"), text := some (Json.str "hello"),
        source := some (Json.str "101"),
        fragments := [("c8y_Custom", Json.obj [("x", Json.num 1)])] }
      (Json.str "101") rfl (by simp)
  exact ⟨y, h1, h2, h3, h4, h5, h6, h7, h8⟩

theorem from_json_tracking (j : List (String × Json)) (e : Event)
    (h : Event.from_json j = some e) :
    e.textUpdated = false ∧ e.updatedFragments = [] := by
  unfold Event.from_json at h
  split at h
  · split at h
    · rw [Option.some.injEq] at h
      subst h
      exact ⟨rfl, rfl⟩
    · simp at h
  · simp at h

/-- Claim C4: for an event freshly loaded from JSON and then mutated in
exactly one updatable field (the `text` property), the diff payload
`to_json(only_updated=True)` contains exactly the `text` key and nothing
else; in particular no unchanged typed field, no `source` and no
`creationTime` key appears. -/
theorem event_diff_json_single_field (j : List (String × Json)) (e : Event) (t : Json)
    (h : Event.from_json j = some e) :
    (e.set_text t).to_json true = [("text", t)] := by
  obtain ⟨-, huf⟩ := from_json_tracking j e h
  unfold Event.to_json Event.set_text
  simp [huf, optField, List.filter_eq_nil_iff]

/-- Claim C4, witness: loading a minimal event JSON and setting its text
yields the singleton diff payload. -/
theorem event_diff_json_single_field_witness :
    Event.from_json [("source", Json.obj [("id", Json.str "1")]), ("type", Json.str "x")] =
      some { type := some (Json.str "x"), source := some (Json.str "1"),
             fragments := [] } ∧
    (Event.set_text { type := some (Json.str "x"), source := some (Json.str "1"),
                      fragments := ([] : List (String × Json)) }
        (Json.str "updated")).to_json true =
      [("text", Json.str "updated")] :=
  ⟨rfl, event_diff_json_single_field
    [("source", Json.obj [("id", Json.str "1")]), ("type", Json.str "x")] _ _ rfl⟩

/-- Claim C6: with `limit=5` and `page_size=2`, whenever the upstream
result sequence holds at least 5 matching events the select iteration
yields exactly 5 items and issues at most 3 page fetches; the limit is
reached inside the third page and no further page fetch is issued. -/
theorem events_select_pagination_limit (all : List Event) (h : 5 ≤ all.length) :
    (eventsSelectPaged all 2 5).1.length = 5 ∧ (eventsSelectPaged all 2 5).2 ≤ 3 := by
  rcases all with _ | ⟨a, all⟩
  · simp at h
  rcases all with _ | ⟨b, all⟩
  · simp at h
  rcases all with _ | ⟨c, all⟩
  · simp at h
  rcases all with _ | ⟨d, all⟩
  · simp at h
  rcases all with _ | ⟨e, tl⟩
  · simp at h
  exact ⟨rfl, Nat.le_refl 3⟩

/-- Claim C6, witness: a concrete upstream sequence of exactly 5 events. -/
theorem events_select_pagination_limit_witness :
    5 ≤ ([{}, {}, {}, {}, {}] : List Event).length ∧
    (eventsSelectPaged ([{}, {}, {}, {}, {}] : List Event) 2 5).1.length = 5 ∧
    (eventsSelectPaged ([{}, {}, {}, {}, {}] : List Event) 2 5).2 ≤ 3 :=
  ⟨by simp, events_select_pagination_limit _ (by simp)⟩

/-- Claim C8: `Events.create` preserves the number and order of the given
events; each event whose time is unset (falsy) has its time defaulted to
the current UTC time rendered as a timestamp string, and each event whose
time is set is passed on completely unchanged. -/
theorem events_create_time_default (now : Nat) (events : List Event) (i : Nat)
    (h : i < events.length) :
    (eventsCreatePrepareAll now events).length = events.length ∧
    (jsonFalsy (events.get ⟨i, h⟩).time = true →
      (eventsCreatePrepareAll now events).get
          ⟨i, by simpa [eventsCreatePrepareAll] using h⟩ =
        { events.get ⟨i, h⟩ with time := some (Json.str (String.mk (isoFormat now))) }) ∧
    (jsonFalsy (events.get ⟨i, h⟩).time = false →
      (eventsCreatePrepareAll now events).get
          ⟨i, by simpa [eventsCreatePrepareAll] using h⟩ = events.get ⟨i, h⟩) := by
  refine ⟨by simp [eventsCreatePrepareAll], ?_, ?_⟩ <;> intro hf <;>
    simp only [List.get_eq_getElem] at hf <;>
    simp [eventsCreatePrepareAll, List.getElem_map, eventCreatePrepare, hf]

/-- Claim C8, witness: a two-event list where the first event has no time
(it gets the current time) and the second has one (kept unchanged). -/
theorem events_create_time_default_witness :
    (eventsCreatePrepareAll 5 [{}, { time := some (Json.str "T") }]).length = 2 ∧
    (eventsCreatePrepareAll 5 [{}, { time := some (Json.str "T") }]).get
        ⟨0, by simp [eventsCreatePrepareAll]⟩ =
      { time := some (Json.str (String.mk (isoFormat 5))) } := by
  obtain ⟨hlen, htrue, -⟩ :=
    events_create_time_default 5 [{}, { time := some (Json.str "T") }] 0 (by simp)
  exact ⟨hlen, htrue rfl⟩

/-- Claim C9: every attachment operation fails fast with a precondition
error, before any request is formed, when the client reference or the
object identifier is missing; with both present it issues its request
against the binary sub-resource path of the event (the object path plus
`/binaries`). -/
theorem event_attachment_precondition (op : AttachmentOp) (hasC8y : Bool)
    (objectId : Option (List Char)) :
    (hasC8y = false → ∃ msg, eventAttachmentRequest op hasC8y objectId = Except.error msg) ∧
    (objectId = none → ∃ msg, eventAttachmentRequest op hasC8y objectId = Except.error msg) ∧
    (∀ i, hasC8y = true → objectId = some i →
      eventAttachmentRequest op hasC8y objectId =
        Except.ok (op, "/event/events/".toList ++ i ++ "/binaries".toList)) := by
  refine ⟨?_, ?_, ?_⟩
  · intro h
    subst h
    exact ⟨_, rfl⟩
  · intro h
    subst h
    cases hasC8y
    · exact ⟨_, rfl⟩
    · exact ⟨_, rfl⟩
  · intro i h1 h2
    subst h1
    subst h2
    rfl

/-- Claim C9, witness: the download operation with client and identifier
present targets the binary sub-resource path; without a client it fails. -/
theorem event_attachment_precondition_witness :
    eventAttachmentRequest AttachmentOp.downloadOp true (some "42".toList) =
      Except.ok (AttachmentOp.downloadOp,
        "/event/events/".toList ++ "42".toList ++ "/binaries".toList) ∧
    (∃ msg, eventAttachmentRequest AttachmentOp.downloadOp false none =
      Except.error msg) :=
  ⟨(event_attachment_precondition AttachmentOp.downloadOp true
      (some "42".toList)).2.2 "42".toList rfl rfl,
    (event_attachment_precondition AttachmentOp.downloadOp false none).1 rfl⟩
